import Mathlib

/-!
Verification of the timing/scheduling core of `src/src/core/core.cpp`
(`Core::System`): the `RunLoop` round scheduler, the reschedule
coordinator, and the `Load` / `Init` / `Shutdown` / `Reset` lifecycle
state machine.

The `System` methods are translated directly from the source.  The
collaborators they call (the per-core `Timer`, the `Kernel`, the
`Loader`, `VideoCore`) live outside the reviewed slice; their observable
behaviour is modelled from the spec as explicit state fields and an
environment record, as noted on each definition.
-/

namespace Citra

/-- Session result codes of `Core::System::ResultStatus`
(spec section 6; the header is outside the slice, the constructors
are the ones `core.cpp` and the spec use). -/
inductive ResultStatus where
  | Success
  | ShutdownRequested
  | ErrorGetLoader
  | ErrorSystemMode
  | ErrorLoader
  | ErrorLoader_ErrorEncrypted
  | ErrorLoader_ErrorInvalidFormat
  | ErrorVideoCore
  deriving DecidableEq, Repr

/-- Result codes of the external `Loader` collaborator
(`Loader::ResultStatus`): the cases `core.cpp` branches on, with
`ErrorOther` standing for every other non-success code
(the source handles those through `default:`). -/
inductive LoaderResult where
  | Success
  | ErrorEncrypted
  | ErrorInvalidFormat
  | ErrorOther
  deriving DecidableEq, Repr

/-- Modelled from the spec: the per-core timer and kernel collaborator
state the scheduler observes (`Timer` and `KernelSystem` are outside the
slice).  `ticks` is the timer's tick accumulator (`GetTicks`);
`Advance(n)` adds `n` to it; `maxSliceLength` is `GetMaxSliceLength()`;
`idleAdvance` is the amount `Idle()` advances the timer ("the idle
duration implied by the next pending event"); `runAdvance` is "one
execution step's advancement" during `Run()`; `hasThread` is whether the
kernel's thread manager for this core reports a current thread; and
`runRequestsResched` is whether this core's `Run()` fires the kernel's
reschedule callback (wired to `PrepareReschedule`). -/
structure CoreData where
  ticks : Int
  maxSliceLength : Int
  idleAdvance : Int
  runAdvance : Int
  hasThread : Bool
  runRequestsResched : Bool
  deriving DecidableEq, Repr

/-- Configuration and title-override flags of `Settings::values` that
`core.cpp` reads or writes. -/
structure SettingsT where
  is_new_3ds : Bool
  use_cpu_jit : Bool
  enable_dsp_lle : Bool
  custom_textures : Bool
  preload_textures : Bool
  display_transfer_hack : Bool
  skip_slow_draw : Bool
  texture_load_hack : Bool
  deriving DecidableEq, Repr

/-- The observable state of `Core::System`: the scheduler state
(global clock, cores, running core, request flags, status) and the
lifecycle handles (each `Bool` field records whether the corresponding
`unique_ptr`/`shared_ptr` subsystem handle is live). -/
structure SysState where
  globalTicks : Int
  cores : List CoreData
  runningCoreIdx : Option Nat
  reschedulePending : Bool
  resetRequested : Bool
  shutdownRequested : Bool
  status : ResultStatus
  settings : SettingsT
  memory : Bool
  timingLive : Bool
  kernelLive : Bool
  dspCore : Bool
  telemetrySession : Bool
  rpcServer : Bool
  serviceManager : Bool
  archiveManager : Bool
  cheatEngine : Bool
  perfStats : Bool
  customTexCache : Bool
  appLoader : Bool
  initalized : Bool
  m_filepathSet : Bool
  deriving DecidableEq, Repr

/-- Modelled from the spec: the behaviour of the external collaborators
one `Load` (and the contained `Init`) consults — the `Loader` obtained
for the path, its mode/process results and program identifier, and
whether `VideoCore::Init` succeeds. -/
structure LoaderEnv where
  getLoaderOk : Bool
  systemModeResult : LoaderResult
  systemModeVal : Option Nat
  n3dsModeVal : Option Nat
  loadResult : LoaderResult
  programId : Option Nat
  videoInitOk : Bool
  deriving DecidableEq, Repr

/-- Observable events emitted by the modelled methods, in program
order: calls into cores and collaborators that the claims speak about. -/
inductive Ev where
  | run (i : Nat)
  | idle (i : Nat)
  | prepResched (i : Option Nat)
  | addGlobal (n : Int)
  | hwUpdate
  | reschedCore (i : Nat)
  | shutdownEv
  | resetEv
  | createSaveFile
  deriving DecidableEq, Repr

/-- Modelled from the spec: `Timing::MAX_SLICE_LENGTH`, the fixed upper
bound on a synchronized round (a policy constant of the timing
collaborator; the proofs below do not depend on its exact value). -/
def MAX_SLICE_LENGTH : Int := 20000

/-- The catch-up scan of `RunLoop` (core.cpp lines 46-57): for every
core, `delay = GetGlobalTicks() - GetTicks()`; a core with positive
delay is advanced by it, and the first core attaining the largest
positive delay is captured as `current_core_to_execute` (the source
captures a `shared_ptr` to the already-advanced core; the model captures
its index and advanced value).  Returns the advanced core list, the
final `max_delay`, and the captured core. -/
def catchUpAux (g : Int) : Nat → Int → Option (Nat × CoreData) →
    List CoreData → List CoreData × Int × Option (Nat × CoreData)
  | _, md, cur, [] => ([], md, cur)
  | i, md, cur, c :: rest =>
      let d := g - c.ticks
      if 0 < d then
        let c' := { c with ticks := c.ticks + d }
        if md < d then
          let r := catchUpAux g (i + 1) d (some (i, c')) rest
          (c' :: r.1, r.2)
        else
          let r := catchUpAux g (i + 1) md cur rest
          (c' :: r.1, r.2)
      else
        let r := catchUpAux g (i + 1) md cur rest
        (c :: r.1, r.2)

/-- `max_delay` as computed by the catch-up scan of a round, starting
from `max_delay = 0` and no captured core. -/
def roundMaxDelay (s : SysState) : Int :=
  (catchUpAux s.globalTicks 0 0 none s.cores).2.1

/-- The run-or-idle step the `RunLoop` body applies to the selected
core (core.cpp lines 62-68 and 85-91): if the kernel reports no current
thread the core idles (`Timer::Idle()`) and `PrepareReschedule()` is
called; otherwise `Run()` executes one step (which may itself fire the
kernel's reschedule callback, wired to `PrepareReschedule`).  Returns
the stepped core, the new `reschedule_pending`, and the emitted events. -/
def coreStep (i : Nat) (c : CoreData) (pending : Bool) :
    CoreData × Bool × List Ev :=
  if c.hasThread = false then
    ({ c with ticks := c.ticks + c.idleAdvance }, true,
      [Ev.idle i, Ev.prepResched (some i)])
  else
    ({ c with ticks := c.ticks + c.runAdvance },
      pending || c.runRequestsResched,
      Ev.run i :: (if c.runRequestsResched then [Ev.prepResched (some i)] else []))

/-- The synchronized-branch execution loop (core.cpp lines 80-92):
every core in order becomes `running_core` and is stepped.  Returns the
stepped cores, the final `reschedule_pending`, the index of the last
core selected as `running_core` (if any), and the event trace. -/
def runAllCores (i : Nat) (pending : Bool) :
    List CoreData → List CoreData × Bool × Option Nat × List Ev
  | [] => ([], pending, none, [])
  | c :: rest =>
      let st := coreStep i c pending
      let r := runAllCores (i + 1) st.2.1 rest
      (st.1 :: r.1, r.2.1, some (r.2.2.1.getD i), st.2.2 ++ r.2.2.2)

/-- `max_slice` of a synchronized round (core.cpp lines 73-76):
`min(MAX_SLICE_LENGTH, min over all cores of GetMaxSliceLength())`. -/
def maxSliceOf (cores : List CoreData) : Int :=
  cores.foldl (fun m c => min m c.maxSliceLength) MAX_SLICE_LENGTH

/-- The execution phase of one `RunLoop` round (core.cpp lines 46-94):
the catch-up scan, then either the catch-up branch (`max_delay > 4096`:
only the captured core is selected and stepped) or the synchronized
branch (advance every core by `max_slice`, step every core, then
`AddToGlobalTicks(max_slice)`). -/
def execPhase (s : SysState) : SysState × List Ev :=
  let scan := catchUpAux s.globalTicks 0 0 none s.cores
  if 4096 < scan.2.1 then
    match scan.2.2 with
    | some jc =>
        let st := coreStep jc.1 jc.2 s.reschedulePending
        ({ s with cores := scan.1.set jc.1 st.1,
                  runningCoreIdx := some jc.1,
                  reschedulePending := st.2.1 }, st.2.2)
    | none => ({ s with cores := scan.1 }, [])
  else
    let ms := maxSliceOf scan.1
    let advanced := scan.1.map (fun c => { c with ticks := c.ticks + ms })
    let r := runAllCores 0 s.reschedulePending advanced
    ({ s with cores := r.1,
              runningCoreIdx := match r.2.2.1 with
                                | some j => some j
                                | none => s.runningCoreIdx,
              reschedulePending := r.2.1,
              globalTicks := s.globalTicks + ms },
      r.2.2.2 ++ [Ev.addGlobal ms])

/-- `System::PrepareReschedule` (core.cpp lines 208-211): forwards the
request to the currently running core and sets `reschedule_pending`. -/
def prepareReschedule (s : SysState) : SysState × List Ev :=
  ({ s with reschedulePending := true }, [Ev.prepResched s.runningCoreIdx])

/-- `System::Reschedule` (core.cpp lines 217-227): no-op when no request
is pending; otherwise clears the flag and asks the kernel thread manager
of every CPU core to reschedule. -/
def reschedule (s : SysState) : SysState × List Ev :=
  if s.reschedulePending = false then (s, [])
  else
    ({ s with reschedulePending := false },
      (List.range s.cores.length).map Ev.reschedCore)

/-- Modelled from the spec: a CPU core newly constructed by `Init`,
bound to a fresh per-core timer (tick accumulator zero, no pending
event before the slice bound, no current thread yet). -/
def freshCore : CoreData :=
  { ticks := 0, maxSliceLength := MAX_SLICE_LENGTH, idleAdvance := 0,
    runAdvance := 0, hasThread := false, runRequestsResched := false }

/-- `System::Init` (core.cpp lines 229-301): chooses the core count
(2, or 4 when `is_new_3ds`), constructs Memory, a fresh `Timing`
(global clock at zero), the Kernel, the CPU cores (`running_core`
becomes core 0), the DSP core, telemetry, the RPC server and the
service/archive managers, initializes the HW block and services, and
finally `VideoCore::Init`; if the latter fails its error is returned
with the already-built handles left live, otherwise `initalized` is
set. -/
def initSys (env : LoaderEnv) (s : SysState) : ResultStatus × SysState :=
  let numCores : Nat := if s.settings.is_new_3ds then 4 else 2
  let s := { s with
    memory := true,
    timingLive := true, globalTicks := 0,
    kernelLive := true,
    cores := List.replicate numCores freshCore,
    runningCoreIdx := some 0,
    dspCore := true,
    telemetrySession := true,
    rpcServer := true,
    serviceManager := true,
    archiveManager := true }
  if env.videoInitOk then (ResultStatus.Success, { s with initalized := true })
  else (ResultStatus.ErrorVideoCore, s)

/-- `System::Shutdown` (core.cpp lines 375-410).  Its first statement,
`GetAndResetPerfStats()`, dereferences the `perf_stats` and `timing`
handles, and the telemetry logging that follows dereferences
`telemetry_session`; dereferencing a released handle is undefined
behaviour, modelled as `none`.  Otherwise every subsystem handle is
released (`cpu_cores.clear()`, the `reset()` calls) and the multiplayer
room is notified. -/
def shutdown (s : SysState) : Option (SysState × List Ev) :=
  if s.perfStats && s.timingLive then
    if s.telemetrySession then
      some ({ s with
        telemetrySession := false, perfStats := false, rpcServer := false,
        cheatEngine := false, archiveManager := false, serviceManager := false,
        dspCore := false, cores := [], kernelLive := false,
        timingLive := false, memory := false, appLoader := false,
        customTexCache := false },
        [Ev.shutdownEv])
    else none
  else none

/-- The fixed title-override table of `Load` (core.cpp lines 185-200):
three identifiers toggle the display-transfer / slow-draw /
texture-load flags; one identifier (Bloodstained) creates a save-data
file and changes no flags; every other identifier changes nothing. -/
def applyTitleOverrides (titleId : Nat) (st : SettingsT) :
    SettingsT × List Ev :=
  if titleId = 0x0004000000068B00 ∨ titleId = 0x0004000000061300 ∨
      titleId = 0x000400000004A700 then
    ({ st with display_transfer_hack := true, skip_slow_draw := true,
               texture_load_hack := false }, [])
  else if titleId = 0x00040000001D3A00 then
    (st, [Ev.createSaveFile])
  else
    (st, [])

/-- `System::Load` (core.cpp lines 112-206): obtain a loader
(`ErrorGetLoader` if none); determine the kernel system mode, mapping a
failure to `ErrorLoader_ErrorEncrypted` / `ErrorLoader_ErrorInvalidFormat`
/ `ErrorSystemMode` before `Init` runs; `ASSERT` the mode values
(a collaborator-contract violation terminates the process, modelled as
`none`); run `Init`, and on failure `Shutdown` then return its error;
ask the loader to materialize the process, and on failure `Shutdown`
then map the error to `ErrorLoader_ErrorEncrypted` /
`ErrorLoader_ErrorInvalidFormat` / `ErrorLoader`; on success construct
the cheat engine, read the program identifier (zero when unresolved),
construct perf-stats and the custom texture cache, set `status` to
`Success`, record the path, and apply the title overrides. -/
def load (env : LoaderEnv) (s : SysState) :
    Option (ResultStatus × SysState × List Ev) :=
  let s := { s with appLoader := env.getLoaderOk }
  if env.getLoaderOk = false then
    some (ResultStatus.ErrorGetLoader, s, [])
  else
    match env.systemModeResult with
    | LoaderResult.ErrorEncrypted =>
        some (ResultStatus.ErrorLoader_ErrorEncrypted, s, [])
    | LoaderResult.ErrorInvalidFormat =>
        some (ResultStatus.ErrorLoader_ErrorInvalidFormat, s, [])
    | LoaderResult.ErrorOther =>
        some (ResultStatus.ErrorSystemMode, s, [])
    | LoaderResult.Success =>
      match env.systemModeVal, env.n3dsModeVal with
      | none, _ => none
      | _, none => none
      | some _, some _ =>
        let ir := initSys env s
        if ir.1 ≠ ResultStatus.Success then
          match shutdown ir.2 with
          | none => none
          | some st => some (ir.1, st.1, st.2)
        else
          match env.loadResult with
          | LoaderResult.Success =>
              let s := { ir.2 with cheatEngine := true }
              let titleId := env.programId.getD 0
              let s := { s with perfStats := true, customTexCache := true,
                                status := ResultStatus.Success,
                                m_filepathSet := true }
              let ov := applyTitleOverrides titleId s.settings
              some (ResultStatus.Success, { s with settings := ov.1 }, ov.2)
          | e =>
              match shutdown ir.2 with
              | none => none
              | some st =>
                  some ((match e with
                         | LoaderResult.ErrorEncrypted =>
                             ResultStatus.ErrorLoader_ErrorEncrypted
                         | LoaderResult.ErrorInvalidFormat =>
                             ResultStatus.ErrorLoader_ErrorInvalidFormat
                         | _ => ResultStatus.ErrorLoader),
                        st.1, st.2)

/-- `System::Reset` (core.cpp lines 412-420): `Shutdown` followed by a
`Load` of the same path (the reload's result is discarded). -/
def resetSys (env : LoaderEnv) (s : SysState) :
    Option (SysState × List Ev) :=
  match shutdown s with
  | none => none
  | some st =>
      match load env st.1 with
      | none => none
      | some r => some (r.2.1, st.2 ++ r.2.2)

/-- The post-round tail of `RunLoop` (core.cpp lines 96-105):
`HW::Update()`, `Reschedule()`, then `reset_requested.exchange(false)`
(a full `Reset` when it was set) else
`shutdown_requested.exchange(false)` (return `ShutdownRequested` when it
was set), else return the current `status`. -/
def postRound (env : LoaderEnv) (s : SysState) :
    Option (ResultStatus × SysState × List Ev) :=
  let rs := reschedule s
  if s.resetRequested then
    match resetSys env { rs.1 with resetRequested := false } with
    | none => none
    | some st =>
        some (st.1.status, st.1,
          Ev.hwUpdate :: rs.2 ++ Ev.resetEv :: st.2)
  else if s.shutdownRequested then
    some (ResultStatus.ShutdownRequested,
      { rs.1 with shutdownRequested := false },
      Ev.hwUpdate :: rs.2)
  else
    some (rs.1.status, rs.1, Ev.hwUpdate :: rs.2)

/-- `System::RunLoop` (core.cpp lines 42-106): the execution phase
followed by the post-round tail.  (The `tight_loop` parameter of the
source is unused by the function body and omitted;
`System::SingleStep` is `RunLoop(false)`.) -/
def runLoop (env : LoaderEnv) (s : SysState) :
    Option (ResultStatus × SysState × List Ev) :=
  let ex := execPhase s
  match postRound env ex.1 with
  | none => none
  | some r => some (r.1, r.2.1, ex.2 ++ r.2.2)

/-- A core advanced up to global time `g` by the catch-up scan: a
lagging core's ticks become `g`, any other core is unchanged. -/
def coreUpTo (g : Int) (c : CoreData) : CoreData :=
  { c with ticks := max c.ticks g }

/-- The state effect of one run-or-idle step on a core. -/
def stepData (c : CoreData) : CoreData :=
  if c.hasThread = false then { c with ticks := c.ticks + c.idleAdvance }
  else { c with ticks := c.ticks + c.runAdvance }

/-- The tick advancement of one run-or-idle step. -/
def stepAdvance (c : CoreData) : Int :=
  if c.hasThread = false then c.idleAdvance else c.runAdvance

/-- Recognizer for `AddToGlobalTicks` events in a trace. -/
def isAddGlobal : Ev → Bool
  | Ev.addGlobal _ => true
  | _ => false

/-- Every subsystem handle the lifecycle manager owns is released. -/
def handlesReleased (s : SysState) : Prop :=
  s.memory = false ∧ s.timingLive = false ∧ s.kernelLive = false ∧
  s.dspCore = false ∧ s.telemetrySession = false ∧ s.rpcServer = false ∧
  s.serviceManager = false ∧ s.archiveManager = false ∧
  s.cheatEngine = false ∧ s.perfStats = false ∧
  s.customTexCache = false ∧ s.appLoader = false ∧ s.cores = []

/-- The system-mode error mapping of `Load`
(core.cpp lines 125-132). -/
def modeError : LoaderResult → ResultStatus
  | LoaderResult.ErrorEncrypted => ResultStatus.ErrorLoader_ErrorEncrypted
  | LoaderResult.ErrorInvalidFormat => ResultStatus.ErrorLoader_ErrorInvalidFormat
  | LoaderResult.ErrorOther => ResultStatus.ErrorSystemMode
  | LoaderResult.Success => ResultStatus.Success

/-! Concrete states and environments used by the example theorems. -/

/-- A configuration with every option off. -/
def exSettings : SettingsT :=
  { is_new_3ds := false, use_cpu_jit := false, enable_dsp_lle := false,
    custom_textures := false, preload_textures := false,
    display_transfer_hack := false, skip_slow_draw := false,
    texture_load_hack := false }

/-- A live mid-session system: every subsystem handle live, global clock
at tick 5000, no request flags set (concrete examples install their own
core lists). -/
def exBase : SysState :=
  { globalTicks := 5000, cores := [], runningCoreIdx := some 0,
    reschedulePending := false, resetRequested := false,
    shutdownRequested := false, status := ResultStatus.Success,
    settings := exSettings, memory := true, timingLive := true,
    kernelLive := true, dspCore := true, telemetrySession := true,
    rpcServer := true, serviceManager := true, archiveManager := true,
    cheatEngine := true, perfStats := true, customTexCache := true,
    appLoader := true, initalized := true, m_filepathSet := true }

/-- A benign collaborator environment: every loader interaction
succeeds. -/
def exEnv : LoaderEnv :=
  { getLoaderOk := true, systemModeResult := LoaderResult.Success,
    systemModeVal := some 2, n3dsModeVal := some 0,
    loadResult := LoaderResult.Success, programId := some 1,
    videoInitOk := true }

/-- The spec's synchronized-round scenario: two cores within 100 ticks
of the global clock, per-core max slice lengths 300 and 150. -/
def exSyncState : SysState :=
  { exBase with cores :=
      [{ ticks := 4900, maxSliceLength := 300, idleAdvance := 0,
         runAdvance := 0, hasThread := false, runRequestsResched := false },
       { ticks := 5000, maxSliceLength := 150, idleAdvance := 0,
         runAdvance := 0, hasThread := false, runRequestsResched := false }] }

/-- The spec's catch-up scenario: core 0 at tick 0, core 1 at tick 5000,
global clock at tick 5000. -/
def exCatchState : SysState :=
  { exBase with cores :=
      [{ ticks := 0, maxSliceLength := 20000, idleAdvance := 7,
         runAdvance := 0, hasThread := false, runRequestsResched := false },
       { ticks := 5000, maxSliceLength := 20000, idleAdvance := 0,
         runAdvance := 0, hasThread := false, runRequestsResched := false }] }

/-- A freshly constructed system object: no subsystem handle live. -/
def exFresh : SysState :=
  { exBase with
    globalTicks := 0, cores := [], runningCoreIdx := none,
    memory := false, timingLive := false, kernelLive := false,
    dspCore := false, telemetrySession := false, rpcServer := false,
    serviceManager := false, archiveManager := false, cheatEngine := false,
    perfStats := false, customTexCache := false, appLoader := false,
    initalized := false, m_filepathSet := false }

/-- The torn-down system `Load` leaves behind when the loader fails to
materialize a process after a successful `Init` of `exBase`. -/
def exTornDown : SysState :=
  { exFresh with
    runningCoreIdx := some 0, initalized := true, m_filepathSet := true }

/-- The system state after a successful `Load` of `exBase` under
`exEnv` with the first flag-override title identifier. -/
def exLoaded : SysState :=
  { exBase with
    globalTicks := 0, cores := [freshCore, freshCore],
    settings := { exSettings with
      display_transfer_hack := true, skip_slow_draw := true } }

/-! Helper lemmas about the catch-up scan. -/

theorem coreUpTo_eq (g : Int) (c : CoreData) (x : Int)
    (h : x = max c.ticks g) : { c with ticks := x } = coreUpTo g c := by
  subst h; rfl

theorem catchUpAux_fst (g : Int) (cs : List CoreData) :
    ∀ (i : Nat) (md : Int) (cur : Option (Nat × CoreData)),
    (catchUpAux g i md cur cs).1 = cs.map (coreUpTo g) := by
  induction cs with
  | nil => intro i md cur; simp [catchUpAux]
  | cons c rest ih =>
      intro i md cur
      simp only [catchUpAux, List.map]
      by_cases hd : 0 < g - c.ticks
      · rw [if_pos hd]
        have hc : { c with ticks := c.ticks + (g - c.ticks) } = coreUpTo g c :=
          coreUpTo_eq g c _ (by omega)
        by_cases hm : md < g - c.ticks
        · rw [if_pos hm]; simp only [ih, hc]
        · rw [if_neg hm]; simp only [ih, hc]
      · rw [if_neg hd]
        have hc : c = coreUpTo g c := coreUpTo_eq g c c.ticks (by omega)
        simp only [ih]
        exact congrArg (· :: rest.map (coreUpTo g)) hc

theorem catchUpAux_maxDelay (g : Int) (cs : List CoreData) :
    ∀ (i : Nat) (md : Int) (cur : Option (Nat × CoreData)), 0 ≤ md →
    (catchUpAux g i md cur cs).2.1 =
      cs.foldl (fun m c => max m (g - c.ticks)) md := by
  induction cs with
  | nil => intro i md cur _; simp [catchUpAux]
  | cons c rest ih =>
      intro i md cur hmd
      simp only [catchUpAux, List.foldl]
      by_cases hd : 0 < g - c.ticks
      · rw [if_pos hd]
        by_cases hm : md < g - c.ticks
        · rw [if_pos hm]
          rw [ih _ _ _ (le_of_lt (lt_of_le_of_lt hmd hm))]
          congr 1; omega
        · rw [if_neg hm]
          rw [ih _ _ _ hmd]
          congr 1; omega
      · rw [if_neg hd]
        rw [ih _ _ _ hmd]
        congr 1; omega

theorem foldl_max_le_start (g : Int) (cs : List CoreData) :
    ∀ md : Int, md ≤ cs.foldl (fun m c => max m (g - c.ticks)) md := by
  induction cs with
  | nil => intro md; simp
  | cons c rest ih =>
      intro md
      simp only [List.foldl]
      exact le_trans (le_max_left _ _) (ih _)

theorem le_foldl_max (g : Int) (cs : List CoreData) :
    ∀ (md : Int) (c : CoreData), c ∈ cs →
    g - c.ticks ≤ cs.foldl (fun m c => max m (g - c.ticks)) md := by
  induction cs with
  | nil => intro md c hc; cases hc
  | cons a rest ih =>
      intro md c hc
      simp only [List.foldl]
      rcases List.mem_cons.mp hc with h | h
      · subst h
        exact le_trans (le_max_right _ _) (foldl_max_le_start g rest _)
      · exact ih _ _ h

theorem catchUpAux_argmax (g : Int) (cs : List CoreData) :
    ∀ (i : Nat) (md : Int) (cur : Option (Nat × CoreData)), 0 ≤ md →
    ((catchUpAux g i md cur cs).2.1 = md ∧
      (catchUpAux g i md cur cs).2.2 = cur) ∨
    (md < (catchUpAux g i md cur cs).2.1 ∧
      ∃ j, ∃ h : j < cs.length,
        (catchUpAux g i md cur cs).2.2 =
          some (i + j, coreUpTo g (cs.get ⟨j, h⟩)) ∧
        g - (cs.get ⟨j, h⟩).ticks = (catchUpAux g i md cur cs).2.1) := by
  induction cs with
  | nil => intro i md cur _; left; simp [catchUpAux]
  | cons c rest ih =>
      intro i md cur hmd
      simp only [catchUpAux]
      by_cases hd : 0 < g - c.ticks
      · rw [if_pos hd]
        by_cases hm : md < g - c.ticks
        · rw [if_pos hm]
          rcases ih (i + 1) (g - c.ticks) (some (i, { c with ticks := c.ticks + (g - c.ticks) }))
              (le_of_lt hd) with ⟨h1, h2⟩ | ⟨h1, j, hj, h2, h3⟩
          · right
            refine ⟨by rw [h1]; exact hm, 0, by simp, ?_, by rw [h1]; simp⟩
            rw [h2, Nat.add_zero]
            exact congrArg (fun x => some (i, x)) (coreUpTo_eq g c _ (by omega))
          · right
            refine ⟨lt_trans hm h1, j + 1,
              by simp only [List.length_cons]; omega, ?_, ?_⟩
            · rw [h2]
              have hix : i + 1 + j = i + (j + 1) := by omega
              rw [hix]; rfl
            · exact h3
        · rw [if_neg hm]
          rcases ih (i + 1) md cur hmd with ⟨h1, h2⟩ | ⟨h1, j, hj, h2, h3⟩
          · left; exact ⟨h1, h2⟩
          · right
            refine ⟨h1, j + 1, by simp only [List.length_cons]; omega, ?_, ?_⟩
            · rw [h2]
              have hix : i + 1 + j = i + (j + 1) := by omega
              rw [hix]; rfl
            · exact h3
      · rw [if_neg hd]
        rcases ih (i + 1) md cur hmd with ⟨h1, h2⟩ | ⟨h1, j, hj, h2, h3⟩
        · left; exact ⟨h1, h2⟩
        · right
          refine ⟨h1, j + 1, by simp only [List.length_cons]; omega, ?_, ?_⟩
          · rw [h2]
            have hix : i + 1 + j = i + (j + 1) := by omega
            rw [hix]; rfl
          · exact h3

/-! Helper lemmas about the run-or-idle step and the synchronized loop. -/

theorem coreStep_fst (i : Nat) (c : CoreData) (p : Bool) :
    (coreStep i c p).1 = stepData c := by
  unfold coreStep stepData
  by_cases h : c.hasThread = false <;> simp [h]

theorem stepData_ticks (c : CoreData) :
    (stepData c).ticks = c.ticks + stepAdvance c := by
  unfold stepData stepAdvance
  by_cases h : c.hasThread = false <;> simp [h]

theorem coreStep_trace (i : Nat) (c : CoreData) (p : Bool) :
    ∀ e ∈ (coreStep i c p).2.2,
      e = Ev.run i ∨ e = Ev.idle i ∨ e = Ev.prepResched (some i) := by
  intro e he
  by_cases h : c.hasThread = false
  · have ht : (coreStep i c p).2.2 = [Ev.idle i, Ev.prepResched (some i)] := by
      unfold coreStep; rw [if_pos h]
    rw [ht] at he
    simp only [List.mem_cons, List.not_mem_nil, or_false] at he
    rcases he with h1 | h1
    · right; left; exact h1
    · right; right; exact h1
  · have ht : (coreStep i c p).2.2 =
        Ev.run i :: (if c.runRequestsResched then [Ev.prepResched (some i)] else []) := by
      unfold coreStep; rw [if_neg h]
    rw [ht] at he
    rcases List.mem_cons.mp he with h1 | h1
    · left; exact h1
    · by_cases hr : c.runRequestsResched
      · rw [if_pos hr] at h1
        simp only [List.mem_singleton] at h1
        right; right; exact h1
      · rw [if_neg hr] at h1
        cases h1

theorem runAllCores_fst (cs : List CoreData) :
    ∀ (i : Nat) (p : Bool), (runAllCores i p cs).1 = cs.map stepData := by
  induction cs with
  | nil => intro i p; simp [runAllCores]
  | cons c rest ih =>
      intro i p
      simp only [runAllCores, List.map, ih, coreStep_fst]

theorem runAllCores_trace (cs : List CoreData) :
    ∀ (i : Nat) (p : Bool) (e : Ev), e ∈ (runAllCores i p cs).2.2.2 →
      ∃ k, e = Ev.run k ∨ e = Ev.idle k ∨ e = Ev.prepResched (some k) := by
  induction cs with
  | nil => intro i p e he; simp [runAllCores] at he
  | cons c rest ih =>
      intro i p e he
      simp only [runAllCores, List.mem_append] at he
      rcases he with h | h
      · exact ⟨i, coreStep_trace i c p e h⟩
      · exact ih _ _ _ h

/-! Helper lemmas about `max_slice`. -/

theorem foldl_min_le_start (cs : List CoreData) :
    ∀ a : Int, cs.foldl (fun m c => min m c.maxSliceLength) a ≤ a := by
  induction cs with
  | nil => intro a; simp
  | cons c rest ih =>
      intro a
      simp only [List.foldl]
      exact le_trans (ih _) (min_le_left _ _)

theorem foldl_min_le_mem (cs : List CoreData) :
    ∀ (a : Int) (c : CoreData), c ∈ cs →
      cs.foldl (fun m c => min m c.maxSliceLength) a ≤ c.maxSliceLength := by
  induction cs with
  | nil => intro a c hc; cases hc
  | cons b rest ih =>
      intro a c hc
      simp only [List.foldl]
      rcases List.mem_cons.mp hc with h | h
      · subst h
        exact le_trans (foldl_min_le_start rest _) (min_le_right _ _)
      · exact ih _ _ h

theorem maxSliceOf_le_const (cs : List CoreData) :
    maxSliceOf cs ≤ MAX_SLICE_LENGTH :=
  foldl_min_le_start cs _

theorem maxSliceOf_le_mem (cs : List CoreData) (c : CoreData) (hc : c ∈ cs) :
    maxSliceOf cs ≤ c.maxSliceLength :=
  foldl_min_le_mem cs _ c hc

theorem foldl_min_map (f : CoreData → CoreData)
    (hf : ∀ c, (f c).maxSliceLength = c.maxSliceLength) (cs : List CoreData) :
    ∀ a : Int, (cs.map f).foldl (fun m c => min m c.maxSliceLength) a =
      cs.foldl (fun m c => min m c.maxSliceLength) a := by
  induction cs with
  | nil => intro a; simp
  | cons c rest ih =>
      intro a
      simp only [List.map, List.foldl, hf, ih]

theorem maxSliceOf_coreUpTo (g : Int) (cs : List CoreData) :
    maxSliceOf (cs.map (coreUpTo g)) = maxSliceOf cs := by
  unfold maxSliceOf
  exact foldl_min_map (coreUpTo g) (fun c => rfl) cs MAX_SLICE_LENGTH

/-! Preservation lemmas: which state fields each operation leaves
unchanged. -/

theorem execPhase_preserves (s : SysState) :
    (execPhase s).1.resetRequested = s.resetRequested ∧
    (execPhase s).1.shutdownRequested = s.shutdownRequested ∧
    (execPhase s).1.status = s.status ∧
    (execPhase s).1.settings = s.settings := by
  simp only [execPhase]
  split
  · split <;> exact ⟨rfl, rfl, rfl, rfl⟩
  · exact ⟨rfl, rfl, rfl, rfl⟩

theorem reschedule_preserves (s : SysState) :
    (reschedule s).1.cores = s.cores ∧
    (reschedule s).1.globalTicks = s.globalTicks ∧
    (reschedule s).1.runningCoreIdx = s.runningCoreIdx ∧
    (reschedule s).1.status = s.status ∧
    (reschedule s).1.resetRequested = s.resetRequested ∧
    (reschedule s).1.shutdownRequested = s.shutdownRequested := by
  unfold reschedule
  by_cases h : s.reschedulePending = false <;> simp [h]

theorem reschedule_pending_false (s : SysState) :
    (reschedule s).1.reschedulePending = false := by
  unfold reschedule
  by_cases h : s.reschedulePending = false <;> simp [h]

theorem reschedule_trace_of_pending (s : SysState)
    (h : s.reschedulePending = true) :
    (reschedule s).2 = (List.range s.cores.length).map Ev.reschedCore := by
  unfold reschedule
  simp [h]

theorem reschedule_trace_of_not_pending (s : SysState)
    (h : s.reschedulePending = false) :
    reschedule s = (s, []) := by
  unfold reschedule
  simp [h]

theorem reschedule_trace_shape (s : SysState) :
    ∀ e ∈ (reschedule s).2, ∃ k, e = Ev.reschedCore k := by
  intro e he
  by_cases h : s.reschedulePending = false
  · rw [reschedule_trace_of_not_pending s h] at he
    cases he
  · rw [reschedule_trace_of_pending s (by simpa using h)] at he
    obtain ⟨k, -, hk⟩ := List.mem_map.mp he
    exact ⟨k, hk.symm⟩

theorem shutdown_spec (s : SysState) :
    ∀ st, shutdown s = some st →
    handlesReleased st.1 ∧ st.2 = [Ev.shutdownEv] ∧
    st.1.reschedulePending = s.reschedulePending ∧
    st.1.resetRequested = s.resetRequested ∧
    st.1.shutdownRequested = s.shutdownRequested ∧
    st.1.globalTicks = s.globalTicks ∧
    st.1.status = s.status := by
  intro st h
  unfold shutdown at h
  split at h
  · split at h
    · cases h
      exact ⟨⟨rfl, rfl, rfl, rfl, rfl, rfl, rfl, rfl, rfl, rfl, rfl, rfl, rfl⟩,
        rfl, rfl, rfl, rfl, rfl, rfl⟩
    · cases h
  · cases h

theorem initSys_preserves (env : LoaderEnv) (s : SysState) :
    (initSys env s).2.reschedulePending = s.reschedulePending ∧
    (initSys env s).2.resetRequested = s.resetRequested ∧
    (initSys env s).2.shutdownRequested = s.shutdownRequested ∧
    (initSys env s).2.settings = s.settings ∧
    (initSys env s).2.perfStats = s.perfStats ∧
    (initSys env s).2.status = s.status := by
  unfold initSys
  by_cases h : env.videoInitOk <;> simp [h]

theorem initSys_fst (env : LoaderEnv) (s : SysState) :
    (initSys env s).1 =
      (if env.videoInitOk then ResultStatus.Success
       else ResultStatus.ErrorVideoCore) := by
  unfold initSys
  by_cases h : env.videoInitOk <;> simp [h]

theorem load_preserves_flags (env : LoaderEnv) (s : SysState) :
    ∀ r, load env s = some r →
    r.2.1.reschedulePending = s.reschedulePending ∧
    r.2.1.resetRequested = s.resetRequested ∧
    r.2.1.shutdownRequested = s.shutdownRequested := by
  intro r h
  cases hgl : env.getLoaderOk with
  | false =>
      simp only [load, hgl, if_pos, Option.some.injEq] at h
      subst h; exact ⟨rfl, rfl, rfl⟩
  | true =>
      cases hmode : env.systemModeResult with
      | ErrorEncrypted =>
          simp [load, hgl, hmode] at h
          subst h; exact ⟨rfl, rfl, rfl⟩
      | ErrorInvalidFormat =>
          simp [load, hgl, hmode] at h
          subst h; exact ⟨rfl, rfl, rfl⟩
      | ErrorOther =>
          simp [load, hgl, hmode] at h
          subst h; exact ⟨rfl, rfl, rfl⟩
      | Success =>
          cases hsm : env.systemModeVal with
          | none => simp [load, hgl, hmode, hsm] at h
          | some m =>
            cases hn3 : env.n3dsModeVal with
            | none => simp [load, hgl, hmode, hsm, hn3] at h
            | some n =>
              have hip := initSys_preserves env { s with appLoader := true }
              cases hv : env.videoInitOk with
              | false =>
                  simp [load, hgl, hmode, hsm, hn3, initSys_fst, hv] at h
                  cases hsd : shutdown (initSys env { s with appLoader := true }).2 with
                  | none => rw [hsd] at h; exact Option.noConfusion h
                  | some st =>
                      simp only [hsd, Option.some.injEq] at h
                      subst h
                      have hsp := shutdown_spec _ _ hsd
                      exact ⟨hsp.2.2.1.trans hip.1, hsp.2.2.2.1.trans hip.2.1,
                        hsp.2.2.2.2.1.trans hip.2.2.1⟩
              | true =>
                  cases hlr : env.loadResult with
                  | Success =>
                      simp [load, hgl, hmode, hsm, hn3, hlr, initSys_fst, hv] at h
                      subst h
                      exact ⟨hip.1, hip.2.1, hip.2.2.1⟩
                  | ErrorEncrypted =>
                      simp [load, hgl, hmode, hsm, hn3, hlr, initSys_fst, hv] at h
                      cases hsd : shutdown (initSys env { s with appLoader := true }).2 with
                      | none => rw [hsd] at h; exact Option.noConfusion h
                      | some st =>
                          simp only [hsd, Option.some.injEq] at h
                          subst h
                          have hsp := shutdown_spec _ _ hsd
                          exact ⟨hsp.2.2.1.trans hip.1, hsp.2.2.2.1.trans hip.2.1,
                            hsp.2.2.2.2.1.trans hip.2.2.1⟩
                  | ErrorInvalidFormat =>
                      simp [load, hgl, hmode, hsm, hn3, hlr, initSys_fst, hv] at h
                      cases hsd : shutdown (initSys env { s with appLoader := true }).2 with
                      | none => rw [hsd] at h; exact Option.noConfusion h
                      | some st =>
                          simp only [hsd, Option.some.injEq] at h
                          subst h
                          have hsp := shutdown_spec _ _ hsd
                          exact ⟨hsp.2.2.1.trans hip.1, hsp.2.2.2.1.trans hip.2.1,
                            hsp.2.2.2.2.1.trans hip.2.2.1⟩
                  | ErrorOther =>
                      simp [load, hgl, hmode, hsm, hn3, hlr, initSys_fst, hv] at h
                      cases hsd : shutdown (initSys env { s with appLoader := true }).2 with
                      | none => rw [hsd] at h; exact Option.noConfusion h
                      | some st =>
                          simp only [hsd, Option.some.injEq] at h
                          subst h
                          have hsp := shutdown_spec _ _ hsd
                          exact ⟨hsp.2.2.1.trans hip.1, hsp.2.2.2.1.trans hip.2.1,
                            hsp.2.2.2.2.1.trans hip.2.2.1⟩

/-! Shape of the execution phase in each of the two round branches. -/

theorem execPhase_sync (s : SysState) (hmd : roundMaxDelay s ≤ 4096) :
    execPhase s =
      (let adv := (s.cores.map (coreUpTo s.globalTicks)).map
          (fun c => { c with ticks := c.ticks + maxSliceOf s.cores })
       let r := runAllCores 0 s.reschedulePending adv
       ({ s with cores := r.1,
                 runningCoreIdx := match r.2.2.1 with
                                   | some j => some j
                                   | none => s.runningCoreIdx,
                 reschedulePending := r.2.1,
                 globalTicks := s.globalTicks + maxSliceOf s.cores },
         r.2.2.2 ++ [Ev.addGlobal (maxSliceOf s.cores)])) := by
  unfold roundMaxDelay at hmd
  simp only [execPhase]
  rw [if_neg (not_lt.mpr hmd), catchUpAux_fst, maxSliceOf_coreUpTo]

theorem execPhase_catchup (s : SysState) (hmd : 4096 < roundMaxDelay s) :
    ∃ j, ∃ hj : j < s.cores.length,
      s.globalTicks - (s.cores.get ⟨j, hj⟩).ticks = roundMaxDelay s ∧
      (∀ k, ∀ hk : k < s.cores.length,
        s.globalTicks - (s.cores.get ⟨k, hk⟩).ticks ≤ roundMaxDelay s) ∧
      execPhase s =
        ({ s with
            cores := (s.cores.map (coreUpTo s.globalTicks)).set j
              (stepData (coreUpTo s.globalTicks (s.cores.get ⟨j, hj⟩))),
            runningCoreIdx := some j,
            reschedulePending :=
              (coreStep j (coreUpTo s.globalTicks (s.cores.get ⟨j, hj⟩))
                s.reschedulePending).2.1 },
          (coreStep j (coreUpTo s.globalTicks (s.cores.get ⟨j, hj⟩))
            s.reschedulePending).2.2) := by
  have h0 : (0 : Int) ≤ 0 := le_refl 0
  rcases catchUpAux_argmax s.globalTicks s.cores 0 0 none h0 with
    ⟨h1, _⟩ | ⟨_, j, hj, hcur, hdel⟩
  · exfalso
    unfold roundMaxDelay at hmd
    rw [h1] at hmd
    omega
  · refine ⟨j, hj, hdel, ?_, ?_⟩
    · intro k hk
      unfold roundMaxDelay
      rw [catchUpAux_maxDelay s.globalTicks s.cores 0 0 none h0]
      exact le_foldl_max s.globalTicks s.cores 0 _
        (s.cores.get_mem k hk)
    · simp only [execPhase]
      rw [if_pos (by unfold roundMaxDelay at hmd; exact hmd)]
      rw [Nat.zero_add] at hcur
      rw [hcur]
      dsimp only
      rw [catchUpAux_fst, coreStep_fst]

/-! Shape of a full round when no reset is pending. -/

theorem runLoop_no_reset (env : LoaderEnv) (s : SysState)
    (hr : s.resetRequested = false) :
    ∃ res fin,
      runLoop env s = some (res, fin,
        (execPhase s).2 ++ Ev.hwUpdate :: (reschedule (execPhase s).1).2) ∧
      fin.cores = (execPhase s).1.cores ∧
      fin.globalTicks = (execPhase s).1.globalTicks ∧
      fin.runningCoreIdx = (execPhase s).1.runningCoreIdx ∧
      fin.reschedulePending = false := by
  have hp := execPhase_preserves s
  have hrp := reschedule_preserves (execPhase s).1
  have hpf := reschedule_pending_false (execPhase s).1
  simp only [runLoop, postRound]
  rw [hp.1, hr, if_neg (Bool.false_ne_true)]
  by_cases hs : (execPhase s).1.shutdownRequested = true
  · rw [if_pos hs]
    dsimp only
    exact ⟨ResultStatus.ShutdownRequested, _, rfl,
      hrp.1, hrp.2.1, hrp.2.2.1, hpf⟩
  · rw [if_neg hs]
    dsimp only
    exact ⟨(reschedule (execPhase s).1).1.status, _, rfl,
      hrp.1, hrp.2.1, hrp.2.2.1, hpf⟩

/-! Lemmas about the post-round tail. -/

theorem resetSys_pending (env : LoaderEnv) (x : SysState) :
    ∀ st, resetSys env x = some st →
    st.1.reschedulePending = x.reschedulePending := by
  intro st h
  unfold resetSys at h
  cases hsd : shutdown x with
  | none => simp only [hsd, reduceCtorEq] at h
  | some sd =>
      simp only [hsd] at h
      cases hld : load env sd.1 with
      | none => simp only [hld, reduceCtorEq] at h
      | some r =>
          simp only [hld, Option.some.injEq] at h
          subst h
          exact ((load_preserves_flags env sd.1 r hld).1).trans
            (shutdown_spec x sd hsd).2.2.1

theorem runLoop_eq (env : LoaderEnv) (s : SysState) :
    runLoop env s =
      match postRound env (execPhase s).1 with
      | none => none
      | some r => some (r.1, r.2.1, (execPhase s).2 ++ r.2.2) := rfl

theorem postRound_reset (env : LoaderEnv) (x : SysState)
    (h1 : x.resetRequested = true) :
    postRound env x =
      match resetSys env { (reschedule x).1 with resetRequested := false } with
      | none => none
      | some st =>
          some (st.1.status, st.1,
            Ev.hwUpdate :: ((reschedule x).2 ++ Ev.resetEv :: st.2)) := by
  unfold postRound
  rw [h1]
  rfl

theorem postRound_shutdown_req (env : LoaderEnv) (x : SysState)
    (h1 : x.resetRequested = false) (h2 : x.shutdownRequested = true) :
    postRound env x =
      some (ResultStatus.ShutdownRequested,
        { (reschedule x).1 with shutdownRequested := false },
        Ev.hwUpdate :: (reschedule x).2) := by
  unfold postRound
  rw [h1, h2]
  rfl

theorem postRound_plain (env : LoaderEnv) (x : SysState)
    (h1 : x.resetRequested = false) (h2 : x.shutdownRequested = false) :
    postRound env x =
      some ((reschedule x).1.status, (reschedule x).1,
        Ev.hwUpdate :: (reschedule x).2) := by
  unfold postRound
  rw [h1, h2]
  rfl

theorem postRound_some (env : LoaderEnv) (x : SysState) :
    ∀ pr, postRound env x = some pr →
    pr.2.1.reschedulePending = false ∧
    ∃ rest, pr.2.2 = Ev.hwUpdate :: ((reschedule x).2 ++ rest) := by
  intro pr h
  by_cases h1 : x.resetRequested = true
  · rw [postRound_reset env x h1] at h
    cases hres : resetSys env
        { (reschedule x).1 with resetRequested := false } with
    | none => rw [hres] at h; exact Option.noConfusion h
    | some st =>
        rw [hres] at h
        cases h
        refine ⟨?_, Ev.resetEv :: st.2, rfl⟩
        rw [resetSys_pending env _ st hres]
        exact reschedule_pending_false x
  · rw [Bool.not_eq_true] at h1
    by_cases h2 : x.shutdownRequested = true
    · rw [postRound_shutdown_req env x h1 h2] at h
      cases h
      exact ⟨reschedule_pending_false x, [], by simp⟩
    · rw [Bool.not_eq_true] at h2
      rw [postRound_plain env x h1 h2] at h
      cases h
      exact ⟨reschedule_pending_false x, [], by simp⟩

/-! ## Claim theorems -/

/-- Claim C8: `PrepareReschedule` records the currently running core's
request and sets `reschedule_pending` to true; `Reschedule` is a no-op
when no request is pending, and otherwise clears the flag and asks the
kernel thread manager of every CPU core (not just the requesting one)
to recompute the next thread to run on that core. -/
theorem prepare_and_reschedule_spec (s : SysState) :
    prepareReschedule s =
      ({ s with reschedulePending := true },
        [Ev.prepResched s.runningCoreIdx]) ∧
    (s.reschedulePending = false → reschedule s = (s, [])) ∧
    (s.reschedulePending = true →
      reschedule s =
        ({ s with reschedulePending := false },
          (List.range s.cores.length).map Ev.reschedCore)) := by
  refine ⟨rfl, ?_, ?_⟩
  · intro h; exact reschedule_trace_of_not_pending s h
  · intro h; unfold reschedule; simp [h]

theorem prepare_and_reschedule_spec_witness :
    reschedule exBase = (exBase, []) ∧
    reschedule { exSyncState with reschedulePending := true } =
      ({ exSyncState with reschedulePending := false },
        [Ev.reschedCore 0, Ev.reschedCore 1]) := by
  constructor
  · exact (prepare_and_reschedule_spec exBase).2.1 rfl
  · rw [(prepare_and_reschedule_spec
      { exSyncState with reschedulePending := true }).2.2 rfl]
    rfl

/-- Claim C6: at the end of every round, for both round shapes and in
this order, the hardware-block update runs, any pending reschedule is
applied, then `reset_requested` is consumed (performing a full Reset —
Shutdown followed by reload — when it was set), else
`shutdown_requested` is consumed (returning `ShutdownRequested` when it
was set); otherwise the round returns the current session status. -/
theorem runLoop_post_round_order (env : LoaderEnv) (s : SysState) :
    (s.resetRequested = true →
      runLoop env s =
        match resetSys env
            { (reschedule (execPhase s).1).1 with resetRequested := false } with
        | none => none
        | some st =>
            some (st.1.status, st.1,
              (execPhase s).2 ++ Ev.hwUpdate ::
                ((reschedule (execPhase s).1).2 ++ Ev.resetEv :: st.2))) ∧
    (s.resetRequested = false → s.shutdownRequested = true →
      runLoop env s =
        some (ResultStatus.ShutdownRequested,
          { (reschedule (execPhase s).1).1 with shutdownRequested := false },
          (execPhase s).2 ++ Ev.hwUpdate :: (reschedule (execPhase s).1).2)) ∧
    (s.resetRequested = false → s.shutdownRequested = false →
      runLoop env s =
        some (s.status, (reschedule (execPhase s).1).1,
          (execPhase s).2 ++ Ev.hwUpdate :: (reschedule (execPhase s).1).2)) := by
  have hp := execPhase_preserves s
  have hrp := reschedule_preserves (execPhase s).1
  refine ⟨?_, ?_, ?_⟩
  · intro h1
    rw [runLoop_eq, postRound_reset env _ (hp.1.trans h1)]
    cases resetSys env
        { (reschedule (execPhase s).1).1 with resetRequested := false } with
    | none => rfl
    | some st => rfl
  · intro h1 h2
    rw [runLoop_eq,
      postRound_shutdown_req env _ (hp.1.trans h1) (hp.2.1.trans h2)]
  · intro h1 h2
    rw [runLoop_eq, postRound_plain env _ (hp.1.trans h1) (hp.2.1.trans h2)]
    rw [hrp.2.2.2.1, hp.2.2.1]

theorem runLoop_post_round_order_witness :
    runLoop exEnv exSyncState =
      some (exSyncState.status, (reschedule (execPhase exSyncState).1).1,
        (execPhase exSyncState).2 ++ Ev.hwUpdate ::
          (reschedule (execPhase exSyncState).1).2) :=
  (runLoop_post_round_order exEnv exSyncState).2.2 rfl rfl

/-- Claim C10: `Reschedule` is invoked unconditionally after the
execution phase of every round, so `reschedule_pending` is false
whenever `RunLoop` returns; and when a reschedule was requested during
the round's execution phase, the per-core reschedule of every core is
applied within that same round's trace. -/
theorem runLoop_clears_reschedule (env : LoaderEnv) (s : SysState) :
    ∀ r fin tr, runLoop env s = some (r, fin, tr) →
    fin.reschedulePending = false ∧
    ((execPhase s).1.reschedulePending = true →
      ∀ i, i < (execPhase s).1.cores.length → Ev.reschedCore i ∈ tr) := by
  intro r fin tr h
  simp only [runLoop] at h
  cases hpr : postRound env (execPhase s).1 with
  | none => rw [hpr] at h; exact Option.noConfusion h
  | some pr =>
      rw [hpr] at h
      cases h
      obtain ⟨hpend, rest, htr⟩ := postRound_some env (execPhase s).1 pr hpr
      refine ⟨hpend, ?_⟩
      intro hpd i hi
      rw [htr]
      have hmem : Ev.reschedCore i ∈ (reschedule (execPhase s).1).2 := by
        rw [reschedule_trace_of_pending _ hpd]
        exact List.mem_map.mpr ⟨i, List.mem_range.mpr hi, rfl⟩
      exact List.mem_append.mpr (Or.inr (List.mem_cons.mpr
        (Or.inr (List.mem_append.mpr (Or.inl hmem)))))

theorem runLoop_clears_reschedule_witness :
    ({ exCatchState with cores :=
        [{ ticks := 5007, maxSliceLength := 20000, idleAdvance := 7,
           runAdvance := 0, hasThread := false, runRequestsResched := false },
         { ticks := 5000, maxSliceLength := 20000, idleAdvance := 0,
           runAdvance := 0, hasThread := false,
           runRequestsResched := false }] } : SysState).reschedulePending
      = false ∧
    Ev.reschedCore 0 ∈ ([Ev.idle 0, Ev.prepResched (some 0), Ev.hwUpdate,
      Ev.reschedCore 0, Ev.reschedCore 1] : List Ev) := by
  have h : runLoop exEnv exCatchState =
      some (ResultStatus.Success,
        { exCatchState with cores :=
            [{ ticks := 5007, maxSliceLength := 20000, idleAdvance := 7,
               runAdvance := 0, hasThread := false,
               runRequestsResched := false },
             { ticks := 5000, maxSliceLength := 20000, idleAdvance := 0,
               runAdvance := 0, hasThread := false,
               runRequestsResched := false }] },
        [Ev.idle 0, Ev.prepResched (some 0), Ev.hwUpdate,
          Ev.reschedCore 0, Ev.reschedCore 1]) := by decide
  refine ⟨(runLoop_clears_reschedule exEnv exCatchState _ _ _ h).1, ?_⟩
  exact (runLoop_clears_reschedule exEnv exCatchState _ _ _ h).2
    (by decide) 0 (by decide)

/-- Claim C1 is false as stated: in the spec's own synchronized-round
scenario (two cores within 100 ticks of the global clock, per-core max
slice lengths 300 and 150), the round's `max_slice` is 150 and the
global clock advances by 150, but the core that started 100 ticks
behind is first advanced up to global time by the catch-up scan, so its
timer increases by 250, not by `max_slice`. -/
theorem runLoop_synchronized_round_cex :
    roundMaxDelay exSyncState ≤ 4096 ∧
    exSyncState.globalTicks = 5000 ∧
    exSyncState.cores.map CoreData.ticks = [4900, 5000] ∧
    maxSliceOf exSyncState.cores = 150 ∧
    (runLoop exEnv exSyncState).map
      (fun p => (p.2.1.cores.map CoreData.ticks, p.2.1.globalTicks)) =
      some ([5150, 5150], 5150) ∧
    (5150 : Int) - 4900 ≠ 150 := by
  refine ⟨by decide, by decide, by decide, by decide, by decide, by decide⟩

/-- Claim C1 (amended): in a synchronized round (no core more than 4096
ticks behind the global clock, no reset pending), `max_slice` is the
minimum of `MAX_SLICE_LENGTH` and every core's `GetMaxSliceLength()`;
the Global Clock increases by exactly `max_slice`; and each core's
timer ends at `max(its pre-round ticks, global time) + max_slice` plus
the advancement of its own run-or-idle step — so a core that started at
global time and whose step consumes no extra ticks gains exactly
`max_slice`, while a lagging core additionally gains its pre-round
delay.  `max_slice` never exceeds any core's `GetMaxSliceLength()` nor
the fixed upper bound. -/
theorem runLoop_synchronized_round_amended (env : LoaderEnv)
    (s : SysState) (hmd : roundMaxDelay s ≤ 4096)
    (hr : s.resetRequested = false) :
    ∃ res fin tr, runLoop env s = some (res, fin, tr) ∧
      fin.globalTicks = s.globalTicks + maxSliceOf s.cores ∧
      fin.cores.length = s.cores.length ∧
      (∀ k, ∀ hk : k < s.cores.length, ∀ hk2 : k < fin.cores.length,
        (fin.cores.get ⟨k, hk2⟩).ticks =
          max (s.cores.get ⟨k, hk⟩).ticks s.globalTicks +
            maxSliceOf s.cores + stepAdvance (s.cores.get ⟨k, hk⟩)) ∧
      maxSliceOf s.cores ≤ MAX_SLICE_LENGTH ∧
      (∀ k, ∀ hk : k < s.cores.length,
        maxSliceOf s.cores ≤ (s.cores.get ⟨k, hk⟩).maxSliceLength) := by
  obtain ⟨res, fin, hrun, hc, hg, hrc, hpend⟩ := runLoop_no_reset env s hr
  have hsync := execPhase_sync s hmd
  have hcc : (execPhase s).1.cores =
      ((s.cores.map (coreUpTo s.globalTicks)).map
        (fun c => { c with ticks := c.ticks + maxSliceOf s.cores })).map
          stepData := by
    rw [hsync]
    dsimp only
    rw [runAllCores_fst]
  have hgg : (execPhase s).1.globalTicks =
      s.globalTicks + maxSliceOf s.cores := by
    rw [hsync]
  refine ⟨res, fin, _, hrun, hg.trans hgg, ?_, ?_,
    maxSliceOf_le_const _, ?_⟩
  · rw [hc, hcc]
    simp [List.length_map]
  · intro k hk hk2
    have hfc := hc.trans hcc
    simp only [List.get_eq_getElem, hfc, List.getElem_map, stepData_ticks]
    rfl
  · intro k hk
    exact maxSliceOf_le_mem _ _ (s.cores.get_mem k hk)

theorem runLoop_synchronized_round_amended_witness :
    roundMaxDelay exSyncState ≤ 4096 ∧ exSyncState.resetRequested = false ∧
    ∃ res fin tr, runLoop exEnv exSyncState = some (res, fin, tr) ∧
      fin.globalTicks = exSyncState.globalTicks + maxSliceOf exSyncState.cores ∧
      fin.cores.length = exSyncState.cores.length ∧
      (∀ k, ∀ hk : k < exSyncState.cores.length,
        ∀ hk2 : k < fin.cores.length,
        (fin.cores.get ⟨k, hk2⟩).ticks =
          max (exSyncState.cores.get ⟨k, hk⟩).ticks exSyncState.globalTicks +
            maxSliceOf exSyncState.cores +
            stepAdvance (exSyncState.cores.get ⟨k, hk⟩)) ∧
      maxSliceOf exSyncState.cores ≤ MAX_SLICE_LENGTH ∧
      (∀ k, ∀ hk : k < exSyncState.cores.length,
        maxSliceOf exSyncState.cores ≤
          (exSyncState.cores.get ⟨k, hk⟩).maxSliceLength) :=
  ⟨by decide, by decide,
    runLoop_synchronized_round_amended exEnv exSyncState (by decide) (by decide)⟩

/-- Claim C2: in a round whose largest pre-round delay exceeds 4096
ticks, every lagging core's timer is first advanced up to global time,
and then exactly one core — one whose delay was largest — executes:
it is selected as `running_core`; if the kernel reports no current
thread for it, it idles and a reschedule is requested, otherwise its run
step is invoked; no other core runs or idles that round. -/
theorem runLoop_catchup_single_core (env : LoaderEnv) (s : SysState)
    (hmd : 4096 < roundMaxDelay s) (hr : s.resetRequested = false) :
    ∃ j, ∃ hj : j < s.cores.length, ∃ res fin tr,
      runLoop env s = some (res, fin, tr) ∧
      s.globalTicks - (s.cores.get ⟨j, hj⟩).ticks = roundMaxDelay s ∧
      (∀ k, ∀ hk : k < s.cores.length,
        s.globalTicks - (s.cores.get ⟨k, hk⟩).ticks ≤ roundMaxDelay s) ∧
      fin.runningCoreIdx = some j ∧
      fin.cores.length = s.cores.length ∧
      (∀ k, ∀ hk : k < s.cores.length, ∀ hk2 : k < fin.cores.length,
        k ≠ j →
        fin.cores.get ⟨k, hk2⟩ =
          coreUpTo s.globalTicks (s.cores.get ⟨k, hk⟩)) ∧
      (∀ hj2 : j < fin.cores.length,
        (fin.cores.get ⟨j, hj2⟩).ticks =
          s.globalTicks + stepAdvance (s.cores.get ⟨j, hj⟩)) ∧
      (∀ k, Ev.run k ∈ tr → k = j) ∧
      (∀ k, Ev.idle k ∈ tr → k = j) ∧
      ((s.cores.get ⟨j, hj⟩).hasThread = false →
        Ev.idle j ∈ tr ∧ Ev.prepResched (some j) ∈ tr) ∧
      ((s.cores.get ⟨j, hj⟩).hasThread = true → Ev.run j ∈ tr) := by
  obtain ⟨j, hj, hdel, hbound, hexec⟩ := execPhase_catchup s hmd
  obtain ⟨res, fin, hrun, hc, hg, hrc, hpend⟩ := runLoop_no_reset env s hr
  have hcores : fin.cores =
      (s.cores.map (coreUpTo s.globalTicks)).set j
        (stepData (coreUpTo s.globalTicks (s.cores.get ⟨j, hj⟩))) := by
    rw [hc, hexec]
  have hridx : fin.runningCoreIdx = some j := by rw [hrc, hexec]
  have htr2 : (execPhase s).2 =
      (coreStep j (coreUpTo s.globalTicks (s.cores.get ⟨j, hj⟩))
        s.reschedulePending).2.2 := by
    rw [hexec]
  have hjlt : (s.cores.get ⟨j, hj⟩).ticks < s.globalTicks := by omega
  refine ⟨j, hj, res, fin, _, hrun, hdel, hbound, hridx, ?_, ?_, ?_,
    ?_, ?_, ?_, ?_⟩
  · rw [hcores]
    simp [List.length_set, List.length_map]
  · intro k hk hk2 hkj
    simp only [List.get_eq_getElem, hcores]
    rw [List.getElem_set_ne (fun hh => hkj hh.symm), List.getElem_map]
  · intro hj2
    simp only [List.get_eq_getElem, hcores]
    rw [List.getElem_set_self, stepData_ticks]
    have hmax : max (s.cores.get ⟨j, hj⟩).ticks s.globalTicks =
        s.globalTicks := max_eq_right (le_of_lt hjlt)
    show max (s.cores.get ⟨j, hj⟩).ticks s.globalTicks +
        stepAdvance (s.cores.get ⟨j, hj⟩) =
      s.globalTicks + stepAdvance (s.cores.get ⟨j, hj⟩)
    rw [hmax]
  · intro k hk
    rcases List.mem_append.mp hk with h1 | h1
    · rw [htr2] at h1
      rcases coreStep_trace _ _ _ _ h1 with h2 | h2 | h2
      · injection h2
      · exact Ev.noConfusion h2
      · exact Ev.noConfusion h2
    · rcases List.mem_cons.mp h1 with h2 | h2
      · exact Ev.noConfusion h2
      · obtain ⟨m, hm⟩ := reschedule_trace_shape _ _ h2
        exact Ev.noConfusion hm
  · intro k hk
    rcases List.mem_append.mp hk with h1 | h1
    · rw [htr2] at h1
      rcases coreStep_trace _ _ _ _ h1 with h2 | h2 | h2
      · exact Ev.noConfusion h2
      · injection h2
      · exact Ev.noConfusion h2
    · rcases List.mem_cons.mp h1 with h2 | h2
      · exact Ev.noConfusion h2
      · obtain ⟨m, hm⟩ := reschedule_trace_shape _ _ h2
        exact Ev.noConfusion hm
  · intro hthread
    have hstep : (coreStep j (coreUpTo s.globalTicks (s.cores.get ⟨j, hj⟩))
        s.reschedulePending).2.2 = [Ev.idle j, Ev.prepResched (some j)] := by
      unfold coreStep
      rw [if_pos (show (coreUpTo s.globalTicks
        (s.cores.get ⟨j, hj⟩)).hasThread = false from hthread)]
    constructor
    · exact List.mem_append.mpr (Or.inl (by rw [htr2, hstep]; simp))
    · exact List.mem_append.mpr (Or.inl (by rw [htr2, hstep]; simp))
  · intro hthread
    have hstep : (coreStep j (coreUpTo s.globalTicks (s.cores.get ⟨j, hj⟩))
        s.reschedulePending).2.2 =
        Ev.run j :: (if (s.cores.get ⟨j, hj⟩).runRequestsResched then
          [Ev.prepResched (some j)] else []) := by
      unfold coreStep
      rw [if_neg (show ¬(coreUpTo s.globalTicks
        (s.cores.get ⟨j, hj⟩)).hasThread = false by rw [show (coreUpTo
          s.globalTicks (s.cores.get ⟨j, hj⟩)).hasThread =
          (s.cores.get ⟨j, hj⟩).hasThread from rfl, hthread]; simp)]
      rfl
    exact List.mem_append.mpr (Or.inl (by rw [htr2, hstep]; simp))

theorem runLoop_catchup_single_core_witness :
    4096 < roundMaxDelay exCatchState ∧
    exCatchState.resetRequested = false ∧
    (∃ j, ∃ hj : j < exCatchState.cores.length, ∃ res fin tr,
      runLoop exEnv exCatchState = some (res, fin, tr) ∧
      exCatchState.globalTicks -
        (exCatchState.cores.get ⟨j, hj⟩).ticks = roundMaxDelay exCatchState ∧
      (∀ k, ∀ hk : k < exCatchState.cores.length,
        exCatchState.globalTicks - (exCatchState.cores.get ⟨k, hk⟩).ticks ≤
          roundMaxDelay exCatchState) ∧
      fin.runningCoreIdx = some j ∧
      fin.cores.length = exCatchState.cores.length ∧
      (∀ k, ∀ hk : k < exCatchState.cores.length,
        ∀ hk2 : k < fin.cores.length, k ≠ j →
        fin.cores.get ⟨k, hk2⟩ =
          coreUpTo exCatchState.globalTicks (exCatchState.cores.get ⟨k, hk⟩)) ∧
      (∀ hj2 : j < fin.cores.length,
        (fin.cores.get ⟨j, hj2⟩).ticks =
          exCatchState.globalTicks +
            stepAdvance (exCatchState.cores.get ⟨j, hj⟩)) ∧
      (∀ k, Ev.run k ∈ tr → k = j) ∧
      (∀ k, Ev.idle k ∈ tr → k = j) ∧
      ((exCatchState.cores.get ⟨j, hj⟩).hasThread = false →
        Ev.idle j ∈ tr ∧ Ev.prepResched (some j) ∈ tr) ∧
      ((exCatchState.cores.get ⟨j, hj⟩).hasThread = true →
        Ev.run j ∈ tr)) :=
  ⟨by decide, by decide,
    runLoop_catchup_single_core exEnv exCatchState (by decide) (by decide)⟩

theorem countP_isAddGlobal_reschedule (x : SysState) :
    (reschedule x).2.countP isAddGlobal = 0 := by
  rw [List.countP_eq_zero]
  intro e he
  obtain ⟨k, hk⟩ := reschedule_trace_shape x e he
  subst hk
  simp [isAddGlobal]

theorem countP_isAddGlobal_coreStep (i : Nat) (c : CoreData) (p : Bool) :
    (coreStep i c p).2.2.countP isAddGlobal = 0 := by
  rw [List.countP_eq_zero]
  intro e he
  rcases coreStep_trace i c p e he with h | h | h <;>
    (subst h; simp [isAddGlobal])

theorem countP_isAddGlobal_runAll (cs : List CoreData) (i : Nat) (p : Bool) :
    (runAllCores i p cs).2.2.2.countP isAddGlobal = 0 := by
  rw [List.countP_eq_zero]
  intro e he
  obtain ⟨k, hk⟩ := runAllCores_trace cs i p e he
  rcases hk with h | h | h <;> (subst h; simp [isAddGlobal])

/-- Claim C5 is false as stated: in the spec's own catch-up scenario
(core 0 at tick 0, core 1 at tick 5000, global clock 5000) the round
calls `AddToGlobalTicks` zero times, not once, and the Global Clock is
unchanged rather than advanced — the call sits in the synchronized
branch only. -/
theorem global_ticks_round_cex :
    exCatchState.globalTicks = 5000 ∧
    4096 < roundMaxDelay exCatchState ∧
    (runLoop exEnv exCatchState).map
      (fun p => (p.2.1.globalTicks, p.2.2.countP isAddGlobal)) =
      some (5000, 0) := by
  refine ⟨by decide, by decide, by decide⟩

/-- Claim C5 (amended): `AddToGlobalTicks` is called exactly once per
synchronized round, after all cores have advanced, and not at all in a
catch-up round; absent a reset, the Global Clock never decreases
(its per-round slice being nonnegative), advancing by exactly the
round's `max_slice` in a synchronized round and staying unchanged in a
catch-up round. -/
theorem global_ticks_round_amended (env : LoaderEnv) (s : SysState)
    (hr : s.resetRequested = false) (hms : 0 ≤ maxSliceOf s.cores) :
    ∃ res fin tr, runLoop env s = some (res, fin, tr) ∧
      tr.countP isAddGlobal =
        (if roundMaxDelay s ≤ 4096 then 1 else 0) ∧
      s.globalTicks ≤ fin.globalTicks ∧
      (roundMaxDelay s ≤ 4096 →
        fin.globalTicks = s.globalTicks + maxSliceOf s.cores ∧
        Ev.addGlobal (maxSliceOf s.cores) ∈ tr) ∧
      (4096 < roundMaxDelay s → fin.globalTicks = s.globalTicks) := by
  obtain ⟨res, fin, hrun, hc, hg, hrc, hpend⟩ := runLoop_no_reset env s hr
  by_cases hmd : roundMaxDelay s ≤ 4096
  · have hsync := execPhase_sync s hmd
    have htr : (execPhase s).2 =
        (runAllCores 0 s.reschedulePending
          ((s.cores.map (coreUpTo s.globalTicks)).map
            (fun c => { c with ticks := c.ticks + maxSliceOf s.cores }))).2.2.2
          ++ [Ev.addGlobal (maxSliceOf s.cores)] := by
      rw [hsync]
    have hgg : (execPhase s).1.globalTicks =
        s.globalTicks + maxSliceOf s.cores := by
      rw [hsync]
    refine ⟨res, fin, _, hrun, ?_, ?_, ?_, ?_⟩
    · rw [if_pos hmd, htr]
      simp [List.countP_append, List.countP_cons, countP_isAddGlobal_runAll,
        countP_isAddGlobal_reschedule, isAddGlobal]
    · rw [hg, hgg]; omega
    · intro _
      refine ⟨hg.trans hgg, ?_⟩
      rw [htr]
      exact List.mem_append.mpr (Or.inl (List.mem_append.mpr
        (Or.inr (List.mem_singleton.mpr rfl))))
    · intro h4; omega
  · push_neg at hmd
    obtain ⟨j, hj, hdel, hbound, hexec⟩ := execPhase_catchup s hmd
    have htr2 : (execPhase s).2 =
        (coreStep j (coreUpTo s.globalTicks (s.cores.get ⟨j, hj⟩))
          s.reschedulePending).2.2 := by
      rw [hexec]
    have hgg : (execPhase s).1.globalTicks = s.globalTicks := by
      rw [hexec]
    refine ⟨res, fin, _, hrun, ?_, ?_, ?_, ?_⟩
    · rw [if_neg (not_le.mpr hmd), htr2]
      simp [List.countP_append, List.countP_cons, countP_isAddGlobal_coreStep,
        countP_isAddGlobal_reschedule, isAddGlobal]
    · rw [hg, hgg]
    · intro h4; omega
    · intro _; exact hg.trans hgg

theorem global_ticks_round_amended_witness :
    exSyncState.resetRequested = false ∧ 0 ≤ maxSliceOf exSyncState.cores ∧
    (∃ res fin tr, runLoop exEnv exSyncState = some (res, fin, tr) ∧
      tr.countP isAddGlobal =
        (if roundMaxDelay exSyncState ≤ 4096 then 1 else 0) ∧
      exSyncState.globalTicks ≤ fin.globalTicks ∧
      (roundMaxDelay exSyncState ≤ 4096 →
        fin.globalTicks = exSyncState.globalTicks +
          maxSliceOf exSyncState.cores ∧
        Ev.addGlobal (maxSliceOf exSyncState.cores) ∈ tr) ∧
      (4096 < roundMaxDelay exSyncState →
        fin.globalTicks = exSyncState.globalTicks)) :=
  ⟨by decide, by decide,
    global_ticks_round_amended exEnv exSyncState (by decide) (by decide)⟩

/-- Claim C4 names a property the code does not have: `Shutdown`'s
first statement, `GetAndResetPerfStats()`, dereferences the
`perf_stats` and `timing` handles unconditionally, and the telemetry
logging that follows dereferences `telemetry_session`; after a first
`Shutdown` these handles are released, so a second `Shutdown` in
succession dereferences released handles (undefined behaviour, modelled
as `none`) rather than having no effect, and `Shutdown` of a partially
initialized system with no perf-stats object — exactly what `Load`'s
own failure paths perform on a fresh system — faults the same way. -/
theorem shutdown_second_call_faults :
    (shutdown exBase).isSome = true ∧
    (shutdown exBase).bind (fun p => shutdown p.1) = none ∧
    shutdown exFresh = none := by
  refine ⟨by decide, by decide, by decide⟩

/-- Claim C3 is false as stated: when the loader's system-mode probe
fails (here: encrypted program), `Load` returns the mapped error
without invoking `Shutdown`, and the loader handle obtained at the top
of `Load` remains live in the returned state. -/
theorem load_failure_teardown_cex :
    load { exEnv with systemModeResult := LoaderResult.ErrorEncrypted }
        exFresh =
      some (ResultStatus.ErrorLoader_ErrorEncrypted,
        { exFresh with appLoader := true }, []) ∧
    ({ exFresh with appLoader := true } : SysState).appLoader = true ∧
    Ev.shutdownEv ∉ ([] : List Ev) := by
  refine ⟨by decide, by decide, by decide⟩

/-- Claim C3 (amended): `Load` tears the system down via `Shutdown`
before returning on the failure paths at or after `Init` (render
subsystem failure and process-materialization failure), leaving every
subsystem handle released; on the two pre-`Init` failure paths (no
loader obtainable; system-mode determination failure) it returns
without invoking `Shutdown`, and on the system-mode failure path the
loader handle remains live. -/
theorem load_failure_teardown_amended (env : LoaderEnv) (s : SysState) :
    (∀ r s2 tr, load env s = some (r, s2, tr) →
      env.getLoaderOk = true → env.systemModeResult = LoaderResult.Success →
      r ≠ ResultStatus.Success →
      Ev.shutdownEv ∈ tr ∧ handlesReleased s2) ∧
    (env.getLoaderOk = false →
      load env s = some (ResultStatus.ErrorGetLoader,
        { s with appLoader := false }, [])) ∧
    (env.getLoaderOk = true → env.systemModeResult ≠ LoaderResult.Success →
      load env s = some (modeError env.systemModeResult,
        { s with appLoader := true }, [])) := by
  refine ⟨?_, ?_, ?_⟩
  · intro r s2 tr h hgl hmode hr
    cases hsm : env.systemModeVal with
    | none => simp [load, hgl, hmode, hsm] at h
    | some m =>
      cases hn3 : env.n3dsModeVal with
      | none => simp [load, hgl, hmode, hsm, hn3] at h
      | some n =>
        cases hv : env.videoInitOk with
        | false =>
            simp [load, hgl, hmode, hsm, hn3, initSys_fst, hv] at h
            cases hsd : shutdown (initSys env
                { s with appLoader := true }).2 with
            | none => rw [hsd] at h; exact Option.noConfusion h
            | some st =>
                simp only [hsd, Option.some.injEq, Prod.mk.injEq] at h
                obtain ⟨h1, h2⟩ := h
                simp only [Prod.ext_iff] at h2
                obtain ⟨h2a, h2b⟩ := h2
                subst h2a; subst h2b
                have hsp := shutdown_spec _ _ hsd
                exact ⟨by rw [hsp.2.1]; simp, hsp.1⟩
        | true =>
            cases hlr : env.loadResult with
            | Success =>
                simp [load, hgl, hmode, hsm, hn3, hlr, initSys_fst, hv] at h
                obtain ⟨h1, -⟩ := h
                exact absurd h1.symm hr
            | ErrorEncrypted =>
                simp [load, hgl, hmode, hsm, hn3, hlr, initSys_fst, hv] at h
                cases hsd : shutdown (initSys env
                    { s with appLoader := true }).2 with
                | none => rw [hsd] at h; exact Option.noConfusion h
                | some st =>
                    simp only [hsd, Option.some.injEq, Prod.mk.injEq] at h
                    obtain ⟨h1, h2⟩ := h
                    simp only [Prod.ext_iff] at h2
                    obtain ⟨h2a, h2b⟩ := h2
                    subst h2a; subst h2b
                    have hsp := shutdown_spec _ _ hsd
                    exact ⟨by rw [hsp.2.1]; simp, hsp.1⟩
            | ErrorInvalidFormat =>
                simp [load, hgl, hmode, hsm, hn3, hlr, initSys_fst, hv] at h
                cases hsd : shutdown (initSys env
                    { s with appLoader := true }).2 with
                | none => rw [hsd] at h; exact Option.noConfusion h
                | some st =>
                    simp only [hsd, Option.some.injEq, Prod.mk.injEq] at h
                    obtain ⟨h1, h2⟩ := h
                    simp only [Prod.ext_iff] at h2
                    obtain ⟨h2a, h2b⟩ := h2
                    subst h2a; subst h2b
                    have hsp := shutdown_spec _ _ hsd
                    exact ⟨by rw [hsp.2.1]; simp, hsp.1⟩
            | ErrorOther =>
                simp [load, hgl, hmode, hsm, hn3, hlr, initSys_fst, hv] at h
                cases hsd : shutdown (initSys env
                    { s with appLoader := true }).2 with
                | none => rw [hsd] at h; exact Option.noConfusion h
                | some st =>
                    simp only [hsd, Option.some.injEq, Prod.mk.injEq] at h
                    obtain ⟨h1, h2⟩ := h
                    simp only [Prod.ext_iff] at h2
                    obtain ⟨h2a, h2b⟩ := h2
                    subst h2a; subst h2b
                    have hsp := shutdown_spec _ _ hsd
                    exact ⟨by rw [hsp.2.1]; simp, hsp.1⟩
  · intro h
    simp [load, h]
  · intro hgl hnm
    cases hmode : env.systemModeResult with
    | Success => exact absurd hmode hnm
    | ErrorEncrypted => simp [load, hgl, hmode, modeError]
    | ErrorInvalidFormat => simp [load, hgl, hmode, modeError]
    | ErrorOther => simp [load, hgl, hmode, modeError]

theorem load_failure_teardown_amended_witness :
    Ev.shutdownEv ∈ ([Ev.shutdownEv] : List Ev) ∧
    handlesReleased exTornDown := by
  have h : load { exEnv with loadResult := LoaderResult.ErrorOther }
      exBase = some (ResultStatus.ErrorLoader, exTornDown,
        [Ev.shutdownEv]) := by decide
  exact (load_failure_teardown_amended
    { exEnv with loadResult := LoaderResult.ErrorOther } exBase).1
    _ _ _ h rfl rfl (by decide)

/-- Claim C7: `Load` maps collaborator loader failures into the
session's own result kinds: no loader obtainable gives `ErrorGetLoader`;
a system-mode failure gives `ErrorLoader_ErrorEncrypted` /
`ErrorLoader_ErrorInvalidFormat` / `ErrorSystemMode` and returns before
`Init` runs (the state changes only in the loader handle and no event
is emitted); a process-materialization failure after a successful
`Init` gives the same encrypted / invalid-format kinds, or
`ErrorLoader` for any other failure. -/
theorem load_result_mapping (env : LoaderEnv) (s : SysState) :
    (env.getLoaderOk = false →
      load env s = some (ResultStatus.ErrorGetLoader,
        { s with appLoader := false }, [])) ∧
    (env.getLoaderOk = true →
      env.systemModeResult = LoaderResult.ErrorEncrypted →
      load env s = some (ResultStatus.ErrorLoader_ErrorEncrypted,
        { s with appLoader := true }, [])) ∧
    (env.getLoaderOk = true →
      env.systemModeResult = LoaderResult.ErrorInvalidFormat →
      load env s = some (ResultStatus.ErrorLoader_ErrorInvalidFormat,
        { s with appLoader := true }, [])) ∧
    (env.getLoaderOk = true →
      env.systemModeResult = LoaderResult.ErrorOther →
      load env s = some (ResultStatus.ErrorSystemMode,
        { s with appLoader := true }, [])) ∧
    (∀ r s2 tr, load env s = some (r, s2, tr) →
      env.getLoaderOk = true →
      env.systemModeResult = LoaderResult.Success →
      env.videoInitOk = true →
      (env.loadResult = LoaderResult.ErrorEncrypted →
        r = ResultStatus.ErrorLoader_ErrorEncrypted) ∧
      (env.loadResult = LoaderResult.ErrorInvalidFormat →
        r = ResultStatus.ErrorLoader_ErrorInvalidFormat) ∧
      (env.loadResult = LoaderResult.ErrorOther →
        r = ResultStatus.ErrorLoader)) := by
  refine ⟨?_, ?_, ?_, ?_, ?_⟩
  · intro h; simp [load, h]
  · intro hgl hmode; simp [load, hgl, hmode]
  · intro hgl hmode; simp [load, hgl, hmode]
  · intro hgl hmode; simp [load, hgl, hmode]
  · intro r s2 tr h hgl hmode hv
    cases hsm : env.systemModeVal with
    | none => simp [load, hgl, hmode, hsm] at h
    | some m =>
      cases hn3 : env.n3dsModeVal with
      | none => simp [load, hgl, hmode, hsm, hn3] at h
      | some n =>
        cases hlr : env.loadResult with
        | Success =>
            refine ⟨?_, ?_, ?_⟩ <;>
              (intro hbad; exact LoaderResult.noConfusion hbad)
        | ErrorEncrypted =>
            simp [load, hgl, hmode, hsm, hn3, hlr, initSys_fst, hv] at h
            cases hsd : shutdown (initSys env
                { s with appLoader := true }).2 with
            | none => rw [hsd] at h; exact Option.noConfusion h
            | some st =>
                simp only [hsd, Option.some.injEq, Prod.mk.injEq] at h
                obtain ⟨h1, -⟩ := h
                exact ⟨fun _ => h1.symm,
                  fun hbad => LoaderResult.noConfusion hbad,
                  fun hbad => LoaderResult.noConfusion hbad⟩
        | ErrorInvalidFormat =>
            simp [load, hgl, hmode, hsm, hn3, hlr, initSys_fst, hv] at h
            cases hsd : shutdown (initSys env
                { s with appLoader := true }).2 with
            | none => rw [hsd] at h; exact Option.noConfusion h
            | some st =>
                simp only [hsd, Option.some.injEq, Prod.mk.injEq] at h
                obtain ⟨h1, -⟩ := h
                exact ⟨fun hbad => LoaderResult.noConfusion hbad,
                  fun _ => h1.symm,
                  fun hbad => LoaderResult.noConfusion hbad⟩
        | ErrorOther =>
            simp [load, hgl, hmode, hsm, hn3, hlr, initSys_fst, hv] at h
            cases hsd : shutdown (initSys env
                { s with appLoader := true }).2 with
            | none => rw [hsd] at h; exact Option.noConfusion h
            | some st =>
                simp only [hsd, Option.some.injEq, Prod.mk.injEq] at h
                obtain ⟨h1, -⟩ := h
                exact ⟨fun hbad => LoaderResult.noConfusion hbad,
                  fun hbad => LoaderResult.noConfusion hbad,
                  fun _ => h1.symm⟩

theorem load_result_mapping_witness :
    load { exEnv with getLoaderOk := false } exBase =
      some (ResultStatus.ErrorGetLoader,
        { exBase with appLoader := false }, []) ∧
    load { exEnv with systemModeResult := LoaderResult.ErrorEncrypted }
        exBase =
      some (ResultStatus.ErrorLoader_ErrorEncrypted,
        { exBase with appLoader := true }, []) ∧
    ResultStatus.ErrorLoader = ResultStatus.ErrorLoader := by
  have h : load { exEnv with loadResult := LoaderResult.ErrorOther }
      exBase = some (ResultStatus.ErrorLoader, exTornDown,
        [Ev.shutdownEv]) := by decide
  refine ⟨(load_result_mapping { exEnv with getLoaderOk := false }
      exBase).1 rfl,
    (load_result_mapping { exEnv with
      systemModeResult := LoaderResult.ErrorEncrypted } exBase).2.1 rfl rfl,
    ((load_result_mapping { exEnv with
      loadResult := LoaderResult.ErrorOther } exBase).2.2.2.2
        _ _ _ h rfl rfl rfl).2.2 rfl ▸ rfl⟩

/-- Claim C9: after a successful `Load`, the settings are exactly the
title-override table applied to the resolved program identifier (zero
when unresolved): an identifier matching one of the three flag-override
titles gets exactly those three flag assignments and no other settings
change; any other identifier — including the save-data-only override
title and the unresolved zero — changes no override flag. -/
theorem load_title_override_determinism (env : LoaderEnv) (s : SysState) :
    (∀ r s2 tr, load env s = some (r, s2, tr) →
      r = ResultStatus.Success →
      s2.settings =
        (applyTitleOverrides (env.programId.getD 0) s.settings).1) ∧
    (∀ tid st, (tid = 0x0004000000068B00 ∨ tid = 0x0004000000061300 ∨
        tid = 0x000400000004A700) →
      applyTitleOverrides tid st =
        ({ st with display_transfer_hack := true, skip_slow_draw := true,
                   texture_load_hack := false }, [])) ∧
    (∀ tid st, ¬(tid = 0x0004000000068B00 ∨ tid = 0x0004000000061300 ∨
        tid = 0x000400000004A700) →
      (applyTitleOverrides tid st).1 = st) := by
  refine ⟨?_, ?_, ?_⟩
  · intro r s2 tr h hrs
    subst hrs
    cases hgl : env.getLoaderOk with
    | false =>
        simp [load, hgl] at h
    | true =>
      cases hmode : env.systemModeResult with
      | ErrorEncrypted =>
          simp [load, hgl, hmode] at h
      | ErrorInvalidFormat =>
          simp [load, hgl, hmode] at h
      | ErrorOther =>
          simp [load, hgl, hmode] at h
      | Success =>
        cases hsm : env.systemModeVal with
        | none => simp [load, hgl, hmode, hsm] at h
        | some m =>
          cases hn3 : env.n3dsModeVal with
          | none => simp [load, hgl, hmode, hsm, hn3] at h
          | some n =>
            cases hv : env.videoInitOk with
            | false =>
                simp [load, hgl, hmode, hsm, hn3, initSys_fst, hv] at h
                cases hsd : shutdown (initSys env
                    { s with appLoader := true }).2 with
                | none => rw [hsd] at h; exact Option.noConfusion h
                | some st =>
                    simp only [hsd, Option.some.injEq, Prod.mk.injEq] at h
                    obtain ⟨h1, -⟩ := h
                    exact ResultStatus.noConfusion h1
            | true =>
              cases hlr : env.loadResult with
              | Success =>
                  simp [load, hgl, hmode, hsm, hn3, hlr, initSys_fst,
                    hv] at h
                  obtain ⟨h2a, -⟩ := h
                  rw [← h2a]
                  have hset := (initSys_preserves env
                    { s with appLoader := true }).2.2.2.1
                  show (applyTitleOverrides (env.programId.getD 0)
                    (initSys env { s with appLoader := true }).2.settings).1 =
                    (applyTitleOverrides (env.programId.getD 0) s.settings).1
                  rw [hset]
              | ErrorEncrypted =>
                  simp [load, hgl, hmode, hsm, hn3, hlr, initSys_fst,
                    hv] at h
                  cases hsd : shutdown (initSys env
                      { s with appLoader := true }).2 with
                  | none => rw [hsd] at h; exact Option.noConfusion h
                  | some st =>
                      simp only [hsd, Option.some.injEq,
                        Prod.mk.injEq] at h
                      obtain ⟨h1, -⟩ := h
                      exact ResultStatus.noConfusion h1
              | ErrorInvalidFormat =>
                  simp [load, hgl, hmode, hsm, hn3, hlr, initSys_fst,
                    hv] at h
                  cases hsd : shutdown (initSys env
                      { s with appLoader := true }).2 with
                  | none => rw [hsd] at h; exact Option.noConfusion h
                  | some st =>
                      simp only [hsd, Option.some.injEq,
                        Prod.mk.injEq] at h
                      obtain ⟨h1, -⟩ := h
                      exact ResultStatus.noConfusion h1
              | ErrorOther =>
                  simp [load, hgl, hmode, hsm, hn3, hlr, initSys_fst,
                    hv] at h
                  cases hsd : shutdown (initSys env
                      { s with appLoader := true }).2 with
                  | none => rw [hsd] at h; exact Option.noConfusion h
                  | some st =>
                      simp only [hsd, Option.some.injEq,
                        Prod.mk.injEq] at h
                      obtain ⟨h1, -⟩ := h
                      exact ResultStatus.noConfusion h1
  · intro tid st htid
    unfold applyTitleOverrides
    rw [if_pos htid]
  · intro tid st htid
    unfold applyTitleOverrides
    rw [if_neg htid]
    by_cases hb : tid = 0x00040000001D3A00
    · rw [if_pos hb]
    · rw [if_neg hb]

theorem load_title_override_determinism_witness :
    exLoaded.settings =
      (applyTitleOverrides ((some 0x0004000000068B00 : Option Nat).getD 0)
        exBase.settings).1 ∧
    applyTitleOverrides 0x0004000000068B00 exSettings =
      ({ exSettings with
          display_transfer_hack := true, skip_slow_draw := true,
          texture_load_hack := false }, []) ∧
    (applyTitleOverrides 0 exSettings).1 = exSettings := by
  have h : load { exEnv with programId := some 0x0004000000068B00 }
      exBase = some (ResultStatus.Success, exLoaded, []) := by decide
  refine ⟨(load_title_override_determinism
      { exEnv with programId := some 0x0004000000068B00 } exBase).1
      _ _ _ h rfl,
    (load_title_override_determinism exEnv exBase).2.1
      0x0004000000068B00 exSettings (Or.inl rfl),
    (load_title_override_determinism exEnv exBase).2.2 0 exSettings
      (by decide)⟩

end Citra
